import Mathlib

/-!
Verification development for the wallpaper-app drawing core
(`src/drawing/colors.rs`, `src/drawing/beauty_math.rs`, `src/drawing/primitives.rs`).

Modelling conventions:
* `f64` / `f32` arithmetic is embedded as exact arithmetic over `ℝ` / `ℚ`.
  All concrete scenarios proved below stay within ranges where every claim-relevant
  comparison is far from the rounding error of the machine floats, or where the machine
  operations are exact (small dyadic integers).
* Rust numeric casts are modelled explicitly: `as usize` on a float is truncation
  clamped below by 0 (`Int.toNat ∘ floor`), `as u8` saturates into `Fin 256`,
  `as i32` truncates toward zero.
* Slice indexing that can panic (`colors[i]`) is modelled with `List.getElem?`;
  a panic is the `Option.none` outcome.
* The GDI drawing calls (`draw_line` via `MoveToEx`/`LineTo`) have no observable
  return value; the embedding collects the issued line segments in a list.
* The process-wide mutable statics `ORIG_X`/`ORIG_Y` of `beauty_math.rs` are passed
  in explicitly and the updated slot is returned.
-/

/-! ### Color model (`src/drawing/colors.rs`)

`RGB<u8>`: three `u8` channels. -/

structure RGB where
  r : Fin 256
  g : Fin 256
  b : Fin 256
  deriving DecidableEq

/-- Rust `as u8` cast from `f32` (modelled on `ℚ`): truncate toward zero and
saturate into `[0, 255]`.  `Int.toNat` sends every negative integer to `0`,
matching the saturating float-to-int cast. -/
def f32_as_u8 (x : ℚ) : Fin 256 :=
  ⟨min 255 ⌊x⌋.toNat, by omega⟩

/-- The `winapi::um::wingdi::RGB` macro: packs the three channels as
`r | (g << 8) | (b << 16)` into a `COLORREF`. -/
def wingdi_RGB (r g b : Fin 256) : ℕ :=
  r.val ||| (g.val <<< 8) ||| (b.val <<< 16)

/-- `interpolate_colors` from `colors.rs`.  The source indexes the slice with
`colors[index1]` / `colors[index2]`, which panics when out of range: the panic is
the `none` outcome.  In `f32`, for a single-element slice `segment = 1.0/0.0 = +∞`
and `weight / ∞ = ±0.0`, so `index1 = 0` for every finite weight; the `ℚ`
embedding's `x / 0 = 0` convention yields the same `index1 = 0`. -/
def interpolate_colors (colors : List RGB) (weight : ℚ) : Option ℕ :=
  let num_colors := colors.length
  let segment : ℚ := 1 / ((num_colors - 1 : ℕ) : ℚ)
  let index1 : ℕ := ⌊weight / segment⌋.toNat
  let index2 : ℕ := index1 + 1
  match colors[index1]?, colors[index2]? with
  | some color1, some color2 =>
    let segment_weight : ℚ := (weight - (index1 : ℚ) * segment) / segment
    some (wingdi_RGB
      (f32_as_u8 ((1 - segment_weight) * ((color1.r : ℕ) : ℚ) + segment_weight * ((color2.r : ℕ) : ℚ)))
      (f32_as_u8 ((1 - segment_weight) * ((color1.g : ℕ) : ℚ) + segment_weight * ((color2.g : ℕ) : ℚ)))
      (f32_as_u8 ((1 - segment_weight) * ((color1.b : ℕ) : ℚ) + segment_weight * ((color2.b : ℕ) : ℚ))))
  | _, _ => none

/-- `interpolate_floats` from `colors.rs`: the same algorithm over scalars. -/
def interpolate_floats (floats : List ℚ) (weight : ℚ) : Option ℚ :=
  let num_colors := floats.length
  let segment : ℚ := 1 / ((num_colors - 1 : ℕ) : ℚ)
  let index1 : ℕ := ⌊weight / segment⌋.toNat
  let index2 : ℕ := index1 + 1
  match floats[index1]?, floats[index2]? with
  | some float1, some float2 =>
    let segment_weight : ℚ := (weight - (index1 : ℚ) * segment) / segment
    some ((1 - segment_weight) * float1 + segment_weight * float2)
  | _, _ => none

/-! ### Fractal field generator (`calc_mandelbrot` / `mandelbrot` in `beauty_math.rs`) -/

/-- The escape loop of `fn mandelbrot`, with explicit fuel.  The source's
`while x*x + y*y <= 4.0 && i < max_iter` loop increments `i` on every pass,
so it makes at most `max_iter` passes starting from `i = 0`; running the loop
with fuel `max_iter` is exact: if the fuel runs out then `i = max_iter` and the
loop guard is false anyway, and both return the current `i`. -/
def mandelbrotAux (cx cy : ℚ) (max_iter : ℕ) : ℕ → ℚ → ℚ → ℕ → ℕ
  | 0, _, _, i => i
  | fuel + 1, x, y, i =>
    if x * x + y * y ≤ 4 ∧ i < max_iter then
      mandelbrotAux cx cy max_iter fuel (x * x - y * y + cx) (2 * x * y + cy) (i + 1)
    else i

/-- `fn mandelbrot(cx, cy, max_iter) -> u32`: iterate `z ← z² + c` from `z = 0`
until `|z|² > 4` or `i = max_iter`, returning the iteration count. -/
def mandelbrot (cx cy : ℚ) (max_iter : ℕ) : ℕ :=
  mandelbrotAux cx cy max_iter max_iter 0 0 0

/-- The per-pixel computation of the body of `calc_mandelbrot`'s nested loops:
map the pixel to `(coord - dim/2) * 4 / dim`, take the iteration count mod 256,
and replicate it into the three packed 8-bit channels. -/
def mandelPixel (width height max_iter x y : ℕ) : ℕ :=
  let cx : ℚ := ((x : ℚ) - (width : ℚ) / 2) * 4 / (width : ℚ)
  let cy : ℚ := ((y : ℚ) - (height : ℚ) / 2) * 4 / (height : ℚ)
  let color_value : ℕ := mandelbrot cx cy max_iter % 256
  (color_value <<< 16) ||| (color_value <<< 8) ||| color_value

/-- `fn calc_mandelbrot(width, height, max_iter, pixels)`: write every pixel of the
row-major buffer.  The source writes `pixels[y * width + x]` on a caller-pre-sized
`Vec`; `List.set` performs the same in-range writes (the documented contract
pre-sizes the buffer to `width * height`, making every write in range). -/
def calc_mandelbrot (width height max_iter : ℕ) (pixels : List ℕ) : List ℕ :=
  (List.range height).foldl
    (fun buf y =>
      (List.range width).foldl
        (fun buf2 x => buf2.set (y * width + x) (mandelPixel width height max_iter x y))
        buf)
    pixels

/-! ### Galaxy curve engine (`Galaxy` / `draw_galaxy_step_inc` in `beauty_math.rs`) -/

/-- The `Galaxy` struct of `beauty_math.rs`; `f64` fields become `ℝ`,
`curvature: i32` becomes `ℤ`, `color: u32` becomes `ℕ`. -/
@[ext]
structure Galaxy where
  x : ℝ
  y : ℝ
  color : ℕ
  diameter : ℝ
  max_diameter : ℝ
  curvature : ℤ
  theta : ℝ
  theta_step : ℝ
  is_max_radius : Bool
  hptr_x : ℝ
  hptr_y : ℝ

/-- `Galaxy::new(mouse_x, mouse_y, screen_w, screen_h, color)`.  The source's
`(screen_w * 999 >> 0)` is `usize` arithmetic (`>> 0` is the identity), cast to
`f64` before the division. -/
noncomputable def Galaxy.new (mouse_x mouse_y : ℝ) (screen_w screen_h : ℕ) (color : ℕ) : Galaxy :=
  { x := mouse_x
    y := mouse_y
    color := color
    diameter := 9
    max_diameter := 450
    curvature := 10
    theta := 0
    theta_step := 360 * Real.pi / 180
    is_max_radius := false
    hptr_x := (mouse_x / ((screen_w * 999 : ℕ) : ℝ)) / 999
    hptr_y := (mouse_y / ((screen_h * 999 : ℕ) : ℝ)) / 999 }

/-- `Galaxy::empty()`. -/
def Galaxy.empty : Galaxy :=
  { x := 0, y := 0, color := 0, diameter := 0, max_diameter := 0, curvature := 0,
    theta := 0, theta_step := 0, is_max_radius := false, hptr_x := 0, hptr_y := 0 }

/-- The state-update prelude of one iteration of the inner loop of
`draw_galaxy_step_inc` (lines 66–80 of `beauty_math.rs`): the shrink branch
(latch on first entry, latch clear below `0.1`, decrement), then the growth
branch guarded by the possibly-just-updated latch. -/
noncomputable def galaxyParamStep (g : Galaxy) : Galaxy :=
  let g1 :=
    if g.diameter > g.max_diameter ∨ g.is_max_radius then
      let latch1 := if ¬ g.is_max_radius then true else g.is_max_radius
      let latch2 := if g.diameter < 0.1 then false else latch1
      { g with is_max_radius := latch2,
               theta := g.theta - g.theta_step,
               diameter := g.diameter - 0.1 }
    else g
  if ¬ g1.is_max_radius then
    { g1 with theta := g1.theta + g1.theta_step, diameter := g1.diameter + 0.1 }
  else g1

/-- Rust `as i32` cast of an `f64` (saturation aside): truncation toward zero. -/
noncomputable def f64_as_i32 (x : ℝ) : ℤ :=
  if 0 ≤ x then ⌊x⌋ else -⌊-x⌋

/-- The point computed inside the `unsafe` block of the inner loop, from the
already-updated galaxy state, the loop index `curv_step`, and the process-wide
prior origin `(origX, origY)`. -/
noncomputable def galaxyPoint (origX origY : ℝ) (g : Galaxy) (curv_step : ℤ) : ℝ × ℝ :=
  let hx := g.hptr_x
  let hy := g.hptr_y
  let q := (hx / hy - 1) * g.theta
  let curvature := (curv_step : ℝ) / ((g.curvature : ℤ) : ℝ)
  let h_delta := hx - hy
  (h_delta * Real.cos g.theta + g.diameter * Real.cos q
      + (origX + (g.x - origX) * curvature) - h_delta,
   h_delta * Real.sin g.theta - g.diameter * Real.sin q
      + (origY + (g.y - origY) * curvature))

/-- The index sequence of `for curv_step in (0..curvature).rev()`:
`[c-1, c-2, …, 0]` for positive `c`, empty otherwise. -/
def revRange (c : ℤ) : List ℤ :=
  (List.range c.toNat).map (fun i => ((c.toNat - 1 - i : ℕ) : ℤ))

/-- The inner loop of `draw_galaxy_step_inc`: advance the parameters, compute the
current point, issue a `draw_line` call whenever `prev_x != 0.0`, and carry the
current point as the next `prev`.  Returns the final galaxy state and the list of
issued line segments (each endpoint cast `as i32`), in issue order. -/
noncomputable def galaxyLoop (origX origY : ℝ) :
    List ℤ → Galaxy → ℝ × ℝ → Galaxy × List ((ℤ × ℤ) × (ℤ × ℤ))
  | [], g, _ => (g, [])
  | c :: rest, g, prev =>
    let g1 := galaxyParamStep g
    let cur := galaxyPoint origX origY g1 c
    let tail := galaxyLoop origX origY rest g1 cur
    (tail.1,
      (if prev.1 ≠ 0 then
        [((f64_as_i32 prev.1, f64_as_i32 prev.2), (f64_as_i32 cur.1, f64_as_i32 cur.2))]
      else []) ++ tail.2)

/-- `fn draw_galaxy_step_inc(hdc, galaxy)`.  `prev_x`/`prev_y` start at `0.0`;
after the loop the function overwrites the process-wide `ORIG_X`/`ORIG_Y` slot
with the galaxy's (unmodified) position.  The result is the final galaxy state,
the new `(ORIG_X, ORIG_Y)` slot, and the issued segments.  The pen created by
`create_solid_pen` and released by `close_draw_lines` selects the drawing style
only and contributes no observable data beyond the segments. -/
noncomputable def draw_galaxy_step_inc (origX origY : ℝ) (g : Galaxy) :
    Galaxy × (ℝ × ℝ) × List ((ℤ × ℤ) × (ℤ × ℤ)) :=
  let res := galaxyLoop origX origY (revRange g.curvature) g (0, 0)
  (res.1, (res.1.x, res.1.y), res.2)

/-- One animation tick as the host calls it: the galaxy-state effect of a single
`draw_galaxy_step_inc` call (the state update is independent of the origin slot
and of the drawing surface). -/
noncomputable def galaxyTick (g : Galaxy) : Galaxy :=
  (draw_galaxy_step_inc 0 0 g).1

/-! ### Helper lemmas: escape-loop evaluation -/

/-- One loop pass when the guard holds. -/
theorem mandelbrotAux_enter (cx cy : ℚ) (m fuel : ℕ) (x y : ℚ) (i : ℕ)
    (h1 : x * x + y * y ≤ 4) (h2 : i < m) :
    mandelbrotAux cx cy m (fuel + 1) x y i
      = mandelbrotAux cx cy m fuel (x * x - y * y + cx) (2 * x * y + cy) (i + 1) := by
  rw [mandelbrotAux, if_pos ⟨h1, h2⟩]

/-- Loop exit when the guard fails. -/
theorem mandelbrotAux_exit (cx cy : ℚ) (m fuel : ℕ) (x y : ℚ) (i : ℕ)
    (h : ¬(x * x + y * y ≤ 4 ∧ i < m)) :
    mandelbrotAux cx cy m (fuel + 1) x y i = i := by
  rw [mandelbrotAux, if_neg h]

/-- At `c = 0` the iterate stays at `z = 0`, so the loop runs down its fuel. -/
theorem mandelbrotAux_zero (m : ℕ) :
    ∀ fuel i, i + fuel = m → mandelbrotAux 0 0 m fuel 0 0 i = m := by
  intro fuel
  induction fuel with
  | zero => intro i h; simpa [mandelbrotAux] using h
  | succ f ih =>
    intro i h
    rw [mandelbrotAux_enter _ _ _ _ _ _ _ (by norm_num) (by omega)]
    norm_num
    exact ih (i + 1) (by omega)

/-- The exact center of the plane is in the bounded set: the loop runs to the bound. -/
theorem mandelbrot_zero_zero (m : ℕ) : mandelbrot 0 0 m = m :=
  mandelbrotAux_zero m m 0 (by omega)

/-- Escape count at `c = (-2, -2)`: one pass. -/
theorem mandelbrot_at_m2_m2 : mandelbrot (-2) (-2) 10 = 1 := by
  show mandelbrotAux (-2) (-2) 10 10 0 0 0 = 1
  rw [mandelbrotAux_enter _ _ _ _ _ _ _ (by norm_num) (by norm_num)]
  norm_num
  rw [mandelbrotAux_exit _ _ _ _ _ _ _ (by norm_num)]

/-- Escape count at `c = (0, -2)`: two passes. -/
theorem mandelbrot_at_0_m2 : mandelbrot 0 (-2) 10 = 2 := by
  show mandelbrotAux 0 (-2) 10 10 0 0 0 = 2
  rw [mandelbrotAux_enter _ _ _ _ _ _ _ (by norm_num) (by norm_num)]
  norm_num
  rw [mandelbrotAux_enter _ _ _ _ _ _ _ (by norm_num) (by norm_num)]
  norm_num
  rw [mandelbrotAux_exit _ _ _ _ _ _ _ (by norm_num)]

/-- `c = (-2, 0)` sits on the boundary circle `|z| = 2` and never escapes:
the orbit reaches the fixed point `z = 2` and `|z|² = 4 ≤ 4` keeps the loop
running to the bound. -/
theorem mandelbrot_at_m2_0 : mandelbrot (-2) 0 10 = 10 := by
  show mandelbrotAux (-2) 0 10 10 0 0 0 = 10
  rw [mandelbrotAux_enter _ _ _ _ _ _ _ (by norm_num) (by norm_num)]
  norm_num
  rw [mandelbrotAux_enter _ _ _ _ _ _ _ (by norm_num) (by norm_num)]
  norm_num
  rw [mandelbrotAux_enter _ _ _ _ _ _ _ (by norm_num) (by norm_num)]
  norm_num
  rw [mandelbrotAux_enter _ _ _ _ _ _ _ (by norm_num) (by norm_num)]
  norm_num
  rw [mandelbrotAux_enter _ _ _ _ _ _ _ (by norm_num) (by norm_num)]
  norm_num
  rw [mandelbrotAux_enter _ _ _ _ _ _ _ (by norm_num) (by norm_num)]
  norm_num
  rw [mandelbrotAux_enter _ _ _ _ _ _ _ (by norm_num) (by norm_num)]
  norm_num
  rw [mandelbrotAux_enter _ _ _ _ _ _ _ (by norm_num) (by norm_num)]
  norm_num
  rw [mandelbrotAux_enter _ _ _ _ _ _ _ (by norm_num) (by norm_num)]
  norm_num
  rw [mandelbrotAux_enter _ _ _ _ _ _ _ (by norm_num) (by norm_num)]
  norm_num [mandelbrotAux]

/-! ### Helper lemmas: the four pixels of the 2×2 field -/

theorem mandelPixel_2x2_00 : mandelPixel 2 2 10 0 0 = 65793 := by
  have hcx : (((0 : ℕ) : ℚ) - ((2 : ℕ) : ℚ) / 2) * 4 / ((2 : ℕ) : ℚ) = -2 := by
    push_cast; norm_num
  simp only [mandelPixel, hcx, mandelbrot_at_m2_m2]
  decide

theorem mandelPixel_2x2_10 : mandelPixel 2 2 10 1 0 = 131586 := by
  have hcx : (((1 : ℕ) : ℚ) - ((2 : ℕ) : ℚ) / 2) * 4 / ((2 : ℕ) : ℚ) = 0 := by
    push_cast; norm_num
  have hcy : (((0 : ℕ) : ℚ) - ((2 : ℕ) : ℚ) / 2) * 4 / ((2 : ℕ) : ℚ) = -2 := by
    push_cast; norm_num
  simp only [mandelPixel, hcx, hcy, mandelbrot_at_0_m2]
  decide

theorem mandelPixel_2x2_01 : mandelPixel 2 2 10 0 1 = 657930 := by
  have hcx : (((0 : ℕ) : ℚ) - ((2 : ℕ) : ℚ) / 2) * 4 / ((2 : ℕ) : ℚ) = -2 := by
    push_cast; norm_num
  have hcy : (((1 : ℕ) : ℚ) - ((2 : ℕ) : ℚ) / 2) * 4 / ((2 : ℕ) : ℚ) = 0 := by
    push_cast; norm_num
  simp only [mandelPixel, hcx, hcy, mandelbrot_at_m2_0]
  decide

theorem mandelPixel_2x2_11 : mandelPixel 2 2 10 1 1 = 657930 := by
  have hcx : (((1 : ℕ) : ℚ) - ((2 : ℕ) : ℚ) / 2) * 4 / ((2 : ℕ) : ℚ) = 0 := by
    push_cast; norm_num
  simp only [mandelPixel, hcx, mandelbrot_zero_zero]
  decide

/-- The full 2×2, 10-iteration reference buffer. -/
theorem calc_mandelbrot_2x2 :
    calc_mandelbrot 2 2 10 [0, 0, 0, 0] = [65793, 131586, 657930, 657930] := by
  unfold calc_mandelbrot
  rw [show List.range 2 = [0, 1] from rfl]
  simp only [List.foldl_cons, List.foldl_nil]
  rw [mandelPixel_2x2_00, mandelPixel_2x2_10, mandelPixel_2x2_01, mandelPixel_2x2_11]
  decide

/-! ### Helper lemmas: what `calc_mandelbrot` writes -/

/-- Elements after one row of writes: old elements or per-pixel values of that row. -/
theorem calc_row_mem (w hh m a : ℕ) :
    ∀ (l2 : List ℕ) (buf : List ℕ) (v : ℕ),
      v ∈ l2.foldl (fun b2 x => b2.set (a * w + x) (mandelPixel w hh m x a)) buf →
      v ∈ buf ∨ ∃ x, v = mandelPixel w hh m x a := by
  intro l2
  induction l2 with
  | nil => intro buf v h; exact Or.inl h
  | cons b s ihs =>
    intro buf v h
    simp only [List.foldl_cons] at h
    rcases ihs _ v h with h' | h'
    · rcases List.mem_or_eq_of_mem_set h' with h3 | h3
      · exact Or.inl h3
      · exact Or.inr ⟨b, h3⟩
    · exact Or.inr h'

/-- Elements after all rows of writes: old elements or per-pixel values. -/
theorem calc_rows_mem (w hh m : ℕ) :
    ∀ (l : List ℕ) (buf : List ℕ) (v : ℕ),
      v ∈ l.foldl
        (fun b y => (List.range w).foldl
          (fun b2 x => b2.set (y * w + x) (mandelPixel w hh m x y)) b) buf →
      v ∈ buf ∨ ∃ x y, v = mandelPixel w hh m x y := by
  intro l
  induction l with
  | nil => intro buf v h; exact Or.inl h
  | cons a t ih =>
    intro buf v h
    simp only [List.foldl_cons] at h
    rcases ih _ v h with h' | h'
    · rcases calc_row_mem w hh m a (List.range w) buf v h' with h'' | ⟨x, hx⟩
      · exact Or.inl h''
      · exact Or.inr ⟨x, a, hx⟩
    · exact Or.inr h'

set_option maxRecDepth 4000 in
/-- Packing a value below 256 into all three 8-bit channels. -/
theorem gray_pack : ∀ a, a < 256 → (a <<< 16) ||| (a <<< 8) ||| a = 65793 * a := by
  decide

/-- The `as u8` cast is the identity on values already of `u8` range. -/
theorem f32_as_u8_fin (v : Fin 256) : f32_as_u8 ((v.val : ℚ)) = v := by
  unfold f32_as_u8
  ext
  simp only [Int.floor_natCast, Int.toNat_natCast]
  have := v.isLt
  omega

/-! ### Claims about the fractal generator and the color model -/

/-- C1, counterexample: the claim says all four pixels of `generate(2, 2, 10)` record
escape counts strictly below 10.  The pixel `(x, y) = (0, 1)` maps to `c = (-2, 0)`,
whose orbit never escapes (`|z|²` reaches exactly 4 and stays), so its count is 10,
not below 10. -/
theorem c1_counterexample :
    ¬ mandelbrot (((0 : ℚ) - (2 : ℚ) / 2) * 4 / (2 : ℚ))
        (((1 : ℚ) - (2 : ℚ) / 2) * 4 / (2 : ℚ)) 10 < 10 := by
  have h1 : ((0 : ℚ) - (2 : ℚ) / 2) * 4 / (2 : ℚ) = -2 := by norm_num
  have h2 : ((1 : ℚ) - (2 : ℚ) / 2) * 4 / (2 : ℚ) = 0 := by norm_num
  rw [h1, h2, mandelbrot_at_m2_0]
  omega

/-- C1, amended: `generate(2, 2, 10)` produces the reference buffer
`[65793, 131586, 657930, 657930]`; the two pixels of the top row (`c = (-2,-2)` and
`c = (0,-2)`) escape quickly with counts 1 and 2, while the two pixels of the bottom
row (`c = (-2,0)` and `c = (0,0)`) never escape and record the bound 10. -/
theorem c1_amended :
    calc_mandelbrot 2 2 10 [0, 0, 0, 0] = [65793, 131586, 657930, 657930] ∧
    mandelbrot (-2) (-2) 10 = 1 ∧ mandelbrot 0 (-2) 10 = 2 ∧
    mandelbrot (-2) 0 10 = 10 ∧ mandelbrot 0 0 10 = 10 :=
  ⟨calc_mandelbrot_2x2, mandelbrot_at_m2_m2, mandelbrot_at_0_m2, mandelbrot_at_m2_0,
    mandelbrot_zero_zero 10⟩

/-- C6, counterexample: on a single-element stop sequence `interpolate` does not
return an `InvalidParameter` error — the source has no error channel at all; it
panics on the out-of-range index `colors[1]` (modelled by `none`). -/
theorem c6_counterexample :
    interpolate_colors [⟨0, 0, 0⟩] (1 / 2) = none ∧ interpolate_floats [5] (1 / 2) = none := by
  constructor <;> simp [interpolate_colors, interpolate_floats]

/-- C6, amended: for every weight, `interpolate` on a single-element stop sequence
panics on the out-of-range index `stops[1]` (the `f32` division by zero in the
segment-width computation yields infinity, not a panic, and makes `index1 = 0`). -/
theorem c6_amended :
    ∀ (c : RGB) (q w : ℚ), interpolate_colors [c] w = none ∧ interpolate_floats [q] w = none := by
  intro c q w
  constructor <;> simp [interpolate_colors, interpolate_floats]

/-- C7, counterexample: at the last stop `k = n - 1` the boundary weight is
`k/(n-1) = 1` and `index2 = n` is out of range, so the call panics (`none`) instead
of returning stop `k`'s value. -/
theorem c7_counterexample :
    interpolate_colors [⟨0, 0, 0⟩, ⟨255, 255, 255⟩] (((1 : ℕ) : ℚ) / ((2 - 1 : ℕ) : ℚ))
      ≠ some (wingdi_RGB 255 255 255) := by
  have h : (((1 : ℕ) : ℚ) / ((2 - 1 : ℕ) : ℚ)) = 1 := by norm_num
  have hn : interpolate_colors [⟨0, 0, 0⟩, ⟨255, 255, 255⟩] 1 = none := by
    simp [interpolate_colors]
  rw [h, hn]
  simp

/-- C7, amended: for a stop sequence of length `n ≥ 2` and every `k ≤ n - 2`, the
boundary weight `k/(n-1)` selects `index1 = k` with intra-segment fraction exactly 0,
and the call returns stop `k`'s packed value exactly; the case `k = n - 1` instead
indexes out of range (see the counterexample). -/
theorem c7_amended (colors : List RGB) (k : ℕ) (hk : k + 1 < colors.length) :
    interpolate_colors colors ((k : ℚ) / ((colors.length - 1 : ℕ) : ℚ))
      = some (wingdi_RGB (colors.getD k ⟨0, 0, 0⟩).r (colors.getD k ⟨0, 0, 0⟩).g
          (colors.getD k ⟨0, 0, 0⟩).b) := by
  have hk' : k < colors.length := by omega
  have hne : ((colors.length - 1 : ℕ) : ℚ) ≠ 0 := Nat.cast_ne_zero.mpr (by omega)
  have hws : ((k : ℚ) / ((colors.length - 1 : ℕ) : ℚ)) / (1 / ((colors.length - 1 : ℕ) : ℚ))
      = ((k : ℕ) : ℚ) := by field_simp
  simp only [interpolate_colors, hws, Int.floor_natCast, Int.toNat_natCast,
    List.getElem?_eq_getElem hk', List.getElem?_eq_getElem hk]
  have hsw : ((k : ℚ) / ((colors.length - 1 : ℕ) : ℚ)
        - (k : ℚ) * (1 / ((colors.length - 1 : ℕ) : ℚ)))
      / (1 / ((colors.length - 1 : ℕ) : ℚ)) = 0 := by
    rw [mul_one_div, sub_self, zero_div]
  rw [hsw]
  simp only [sub_zero, one_mul, zero_mul, add_zero, f32_as_u8_fin]
  rw [List.getD_eq_getElem _ _ hk']

/-- C7, witness: on the two-stop black/white palette, the boundary weight of stop 0
returns black exactly. -/
theorem c7_witness :
    interpolate_colors [⟨0, 0, 0⟩, ⟨255, 255, 255⟩] 0 = some (wingdi_RGB 0 0 0) := by
  simpa using c7_amended [⟨0, 0, 0⟩, ⟨255, 255, 255⟩] 0 (by decide)

/-- C8: for even positive dimensions, the pixel `(width/2, height/2)` at the exact
center of the buffer maps to the complex coordinate `(0, 0)` under
`(coord - dim/2) * 4 / dim`, and its escape loop runs to the iteration bound:
the recorded count equals `max_iterations`. -/
theorem c8_center (w h m : ℕ) (hw : 0 < w) (hh : 0 < h) (h2w : 2 ∣ w) (h2h : 2 ∣ h)
    (hm : 1 ≤ m) :
    (((w / 2 : ℕ) : ℚ) - (w : ℚ) / 2) * 4 / (w : ℚ) = 0 ∧
    (((h / 2 : ℕ) : ℚ) - (h : ℚ) / 2) * 4 / (h : ℚ) = 0 ∧
    mandelbrot ((((w / 2 : ℕ) : ℚ) - (w : ℚ) / 2) * 4 / (w : ℚ))
      ((((h / 2 : ℕ) : ℚ) - (h : ℚ) / 2) * 4 / (h : ℚ)) m = m := by
  have e1 : ((w / 2 : ℕ) : ℚ) = (w : ℚ) / 2 := by
    obtain ⟨t, rfl⟩ := h2w
    rw [Nat.mul_div_cancel_left t (by norm_num)]
    push_cast
    ring
  have e2 : ((h / 2 : ℕ) : ℚ) = (h : ℚ) / 2 := by
    obtain ⟨t, rfl⟩ := h2h
    rw [Nat.mul_div_cancel_left t (by norm_num)]
    push_cast
    ring
  have z1 : (((w / 2 : ℕ) : ℚ) - (w : ℚ) / 2) * 4 / (w : ℚ) = 0 := by
    rw [e1]
    simp
  have z2 : (((h / 2 : ℕ) : ℚ) - (h : ℚ) / 2) * 4 / (h : ℚ) = 0 := by
    rw [e2]
    simp
  refine ⟨z1, z2, ?_⟩
  rw [z1, z2]
  exact mandelbrot_zero_zero m

/-- C8, witness: the 2×2 buffer's center pixel at 5 iterations. -/
theorem c8_center_witness : mandelbrot 0 0 5 = 5 := by
  have h := c8_center 2 2 5 (by decide) (by decide) (by decide) (by decide) (by decide)
  have h3 := h.2.2
  rw [h.1] at h3
  exact h3

/-- C10: every value the fractal generator writes is a grayscale 24-bit packed value:
any element of the output buffer is either an untouched input element or a per-pixel
value, and every per-pixel value has its three 8-bit channels equal to the escape
count mod 256 and never exceeds `0xFFFFFF`. -/
theorem c10_grayscale :
    (∀ (w h m : ℕ) (buf : List ℕ) (v : ℕ),
        v ∈ calc_mandelbrot w h m buf → v ∈ buf ∨ ∃ x y, v = mandelPixel w h m x y) ∧
    (∀ w h m x y : ℕ,
        (mandelPixel w h m x y >>> 16) % 256
            = mandelbrot (((x : ℚ) - (w : ℚ) / 2) * 4 / (w : ℚ))
                (((y : ℚ) - (h : ℚ) / 2) * 4 / (h : ℚ)) m % 256 ∧
        (mandelPixel w h m x y >>> 8) % 256
            = mandelbrot (((x : ℚ) - (w : ℚ) / 2) * 4 / (w : ℚ))
                (((y : ℚ) - (h : ℚ) / 2) * 4 / (h : ℚ)) m % 256 ∧
        mandelPixel w h m x y % 256
            = mandelbrot (((x : ℚ) - (w : ℚ) / 2) * 4 / (w : ℚ))
                (((y : ℚ) - (h : ℚ) / 2) * 4 / (h : ℚ)) m % 256 ∧
        mandelPixel w h m x y ≤ 0xFFFFFF) := by
  constructor
  · intro w h m buf v hv
    exact calc_rows_mem w h m (List.range h) buf v hv
  · intro w h m x y
    have ha : mandelbrot (((x : ℚ) - (w : ℚ) / 2) * 4 / (w : ℚ))
        (((y : ℚ) - (h : ℚ) / 2) * 4 / (h : ℚ)) m % 256 < 256 := Nat.mod_lt _ (by norm_num)
    have hv : mandelPixel w h m x y
        = 65793 * (mandelbrot (((x : ℚ) - (w : ℚ) / 2) * 4 / (w : ℚ))
            (((y : ℚ) - (h : ℚ) / 2) * 4 / (h : ℚ)) m % 256) := by
      simp only [mandelPixel]
      exact gray_pack _ ha
    rw [hv, Nat.shiftRight_eq_div_pow, Nat.shiftRight_eq_div_pow,
      show (2 : ℕ) ^ 16 = 65536 from by norm_num, show (2 : ℕ) ^ 8 = 256 from by norm_num]
    have h16 : 65793 * (mandelbrot (((x : ℚ) - (w : ℚ) / 2) * 4 / (w : ℚ))
        (((y : ℚ) - (h : ℚ) / 2) * 4 / (h : ℚ)) m % 256) / 65536
        = mandelbrot (((x : ℚ) - (w : ℚ) / 2) * 4 / (w : ℚ))
            (((y : ℚ) - (h : ℚ) / 2) * 4 / (h : ℚ)) m % 256 := by
      omega
    have h8 : 65793 * (mandelbrot (((x : ℚ) - (w : ℚ) / 2) * 4 / (w : ℚ))
        (((y : ℚ) - (h : ℚ) / 2) * 4 / (h : ℚ)) m % 256) / 256
        = 257 * (mandelbrot (((x : ℚ) - (w : ℚ) / 2) * 4 / (w : ℚ))
            (((y : ℚ) - (h : ℚ) / 2) * 4 / (h : ℚ)) m % 256) := by
      omega
    rw [h16, h8]
    refine ⟨by omega, by omega, by omega, by omega⟩

/-- C10, witness: a value read out of the concrete 2×2 output buffer is a written
pixel value. -/
theorem c10_grayscale_witness :
    65793 ∈ ([0, 0, 0, 0] : List ℕ) ∨ ∃ x y, 65793 = mandelPixel 2 2 10 x y :=
  c10_grayscale.1 2 2 10 [0, 0, 0, 0] 65793 (by rw [calc_mandelbrot_2x2]; simp)

/-! ### Helper lemmas: the galaxy state machine -/

/-- Growing mode: neither over the bound nor latched — one inner iteration adds
`theta_step` to `theta` and `0.1` to `diameter`. -/
theorem galaxyParamStep_grow (g : Galaxy) (hl : g.is_max_radius = false)
    (hd : ¬ g.diameter > g.max_diameter) :
    galaxyParamStep g = { g with theta := g.theta + g.theta_step,
                                 diameter := g.diameter + 0.1 } := by
  unfold galaxyParamStep
  rw [if_neg (not_or_intro hd (by simp [hl]))]
  simp only []
  rw [if_pos (by simp [hl])]

/-- Shrinking mode away from the floor: the latch is (or becomes) set and only the
decrements apply. -/
theorem galaxyParamStep_shrink (g : Galaxy)
    (hc : g.diameter > g.max_diameter ∨ g.is_max_radius = true)
    (hd : ¬ g.diameter < 0.1) :
    galaxyParamStep g = { g with is_max_radius := true,
                                 theta := g.theta - g.theta_step,
                                 diameter := g.diameter - 0.1 } := by
  have hlatch : (if ¬ g.is_max_radius then true else g.is_max_radius) = true := by
    cases h : g.is_max_radius <;> simp [h]
  simp only [galaxyParamStep]
  rw [if_pos hc, if_neg hd, hlatch]
  rw [if_neg (by simp)]

/-- The latch-clearing iteration: with the shrink branch taken and the diameter
below the floor, the latch is cleared and the growth branch re-runs in the same
iteration, so `theta` and `diameter` are net unchanged. -/
theorem galaxyParamStep_shrink_exit (g : Galaxy)
    (hc : g.diameter > g.max_diameter ∨ g.is_max_radius = true)
    (hd : g.diameter < 0.1) :
    galaxyParamStep g = { g with is_max_radius := false } := by
  simp only [galaxyParamStep]
  rw [if_pos hc, if_pos hd]
  rw [if_pos (by simp)]
  ext <;> simp <;> ring

/-- One inner iteration touches only `theta`, `diameter` and `is_max_radius`. -/
theorem galaxyParamStep_frame (g : Galaxy) :
    (galaxyParamStep g).x = g.x ∧ (galaxyParamStep g).y = g.y ∧
    (galaxyParamStep g).color = g.color ∧ (galaxyParamStep g).curvature = g.curvature ∧
    (galaxyParamStep g).max_diameter = g.max_diameter ∧
    (galaxyParamStep g).theta_step = g.theta_step ∧
    (galaxyParamStep g).hptr_x = g.hptr_x ∧ (galaxyParamStep g).hptr_y = g.hptr_y := by
  simp only [galaxyParamStep]
  split <;> split <;> simp

/-- Iterated inner iterations touch only `theta`, `diameter` and `is_max_radius`. -/
theorem galaxyParamStep_iterate_frame (k : ℕ) (g : Galaxy) :
    (galaxyParamStep^[k] g).x = g.x ∧ (galaxyParamStep^[k] g).y = g.y ∧
    (galaxyParamStep^[k] g).color = g.color ∧
    (galaxyParamStep^[k] g).curvature = g.curvature ∧
    (galaxyParamStep^[k] g).max_diameter = g.max_diameter ∧
    (galaxyParamStep^[k] g).theta_step = g.theta_step ∧
    (galaxyParamStep^[k] g).hptr_x = g.hptr_x ∧
    (galaxyParamStep^[k] g).hptr_y = g.hptr_y := by
  induction k with
  | zero => simp
  | succ n ih =>
    rw [Function.iterate_succ_apply']
    obtain ⟨a1, a2, a3, a4, a5, a6, a7, a8⟩ := galaxyParamStep_frame (galaxyParamStep^[n] g)
    obtain ⟨b1, b2, b3, b4, b5, b6, b7, b8⟩ := ih
    exact ⟨a1.trans b1, a2.trans b2, a3.trans b3, a4.trans b4, a5.trans b5, a6.trans b6,
      a7.trans b7, a8.trans b8⟩

/-- While the diameter stays within the bound, `k` inner iterations accumulate
`k` growth increments. -/
theorem galaxyParamStep_iterate_grow (g : Galaxy) (k : ℕ) (hl : g.is_max_radius = false)
    (hd : ∀ j : ℕ, j < k → g.diameter + (j : ℝ) / 10 ≤ g.max_diameter) :
    galaxyParamStep^[k] g = { g with theta := g.theta + (k : ℝ) * g.theta_step,
                                     diameter := g.diameter + (k : ℝ) / 10 } := by
  induction k with
  | zero => ext <;> simp
  | succ n ih =>
    rw [Function.iterate_succ_apply']
    have hi := ih (fun j hj => hd j (by omega))
    have hl' : (galaxyParamStep^[n] g).is_max_radius = false := by rw [hi]; exact hl
    have hd' : ¬ (galaxyParamStep^[n] g).diameter > (galaxyParamStep^[n] g).max_diameter := by
      rw [hi]
      show ¬ g.diameter + (n : ℝ) / 10 > g.max_diameter
      exact not_lt.mpr (hd n (by omega))
    rw [galaxyParamStep_grow _ hl' hd', hi]
    ext <;> simp
    all_goals push_cast
    all_goals ring

/-- While latched and above the floor, `k` inner iterations accumulate `k` shrink
decrements and the latch stays set. -/
theorem galaxyParamStep_iterate_shrink (g : Galaxy) (k : ℕ) (hl : g.is_max_radius = true)
    (hd : ∀ j : ℕ, j < k → (0.1 : ℝ) ≤ g.diameter - (j : ℝ) / 10) :
    galaxyParamStep^[k] g = { g with theta := g.theta - (k : ℝ) * g.theta_step,
                                     diameter := g.diameter - (k : ℝ) / 10 } := by
  induction k with
  | zero => ext <;> simp
  | succ n ih =>
    rw [Function.iterate_succ_apply']
    have hi := ih (fun j hj => hd j (by omega))
    have hl' : (galaxyParamStep^[n] g).is_max_radius = true := by rw [hi]; exact hl
    have hd' : ¬ (galaxyParamStep^[n] g).diameter < 0.1 := by
      rw [hi]
      show ¬ g.diameter - (n : ℝ) / 10 < 0.1
      exact not_lt.mpr (hd n (by omega))
    rw [galaxyParamStep_shrink _ (Or.inr hl') hd', hi]
    ext <;> simp [hl]
    all_goals push_cast
    all_goals ring

/-- Length of the descending loop-index sequence. -/
theorem revRange_length (c : ℤ) : (revRange c).length = c.toNat := by
  simp [revRange]

/-- The `k`-th loop index of `(0..c).rev()` is `c - 1 - k`. -/
theorem revRange_getD (c : ℤ) (k : ℕ) (hk : k < c.toNat) :
    (revRange c).getD k 0 = ((c.toNat - 1 - k : ℕ) : ℤ) := by
  simp [revRange, List.getD_eq_getElem?_getD, List.getElem?_map, List.getElem?_range hk]

/-- The final galaxy state of the inner loop is the parameter step iterated once
per loop index. -/
theorem galaxyLoop_fst (ox oy : ℝ) :
    ∀ (l : List ℤ) (g : Galaxy) (prev : ℝ × ℝ),
      (galaxyLoop ox oy l g prev).1 = galaxyParamStep^[l.length] g := by
  intro l
  induction l with
  | nil => intro g prev; simp [galaxyLoop]
  | cons c rest ih =>
    intro g prev
    simp only [galaxyLoop]
    rw [ih]
    rw [List.length_cons, Function.iterate_succ_apply]

/-- If the incoming previous point has nonzero x and every produced point except
possibly the last has nonzero x, the loop draws one segment per index. -/
theorem galaxyLoop_len_ne (ox oy : ℝ) :
    ∀ (l : List ℤ) (g : Galaxy) (prev : ℝ × ℝ),
      prev.1 ≠ 0 →
      (∀ k : ℕ, k + 1 < l.length →
        (galaxyPoint ox oy (galaxyParamStep^[k + 1] g) (l.getD k 0)).1 ≠ 0) →
      (galaxyLoop ox oy l g prev).2.length = l.length := by
  intro l
  induction l with
  | nil => intro g prev _ _; simp [galaxyLoop]
  | cons c rest ih =>
    intro g prev hprev h
    simp only [galaxyLoop, List.length_append]
    rw [if_pos hprev]
    rcases rest with _ | ⟨r, rs⟩
    · simp [galaxyLoop]
    · have hcur : (galaxyPoint ox oy (galaxyParamStep g) c).1 ≠ 0 := by
        have h0 := h 0 (by simp)
        rwa [List.getD_cons_zero, Function.iterate_one] at h0
      have h' : ∀ k : ℕ, k + 1 < (r :: rs).length →
          (galaxyPoint ox oy (galaxyParamStep^[k + 1] (galaxyParamStep g))
            ((r :: rs).getD k 0)).1 ≠ 0 := by
        intro k hk
        have hh := h (k + 1) (by simpa using Nat.succ_lt_succ hk)
        rwa [List.getD_cons_succ, Function.iterate_succ_apply] at hh
      rw [ih (galaxyParamStep g) (galaxyPoint ox oy (galaxyParamStep g) c) hcur h']
      simp
      omega

/-- With the zero starting previous point, the first index draws nothing and the
loop draws one segment per remaining index. -/
theorem galaxyLoop_len_zero (ox oy : ℝ) (l : List ℤ) (g : Galaxy) (prev : ℝ × ℝ)
    (hprev : prev.1 = 0)
    (h : ∀ k : ℕ, k + 1 < l.length →
      (galaxyPoint ox oy (galaxyParamStep^[k + 1] g) (l.getD k 0)).1 ≠ 0) :
    (galaxyLoop ox oy l g prev).2.length = l.length - 1 := by
  rcases l with _ | ⟨c, rest⟩
  · simp [galaxyLoop]
  · simp only [galaxyLoop, List.length_append]
    rw [if_neg (by simp [hprev])]
    rcases rest with _ | ⟨r, rs⟩
    · simp [galaxyLoop]
    · have hcur : (galaxyPoint ox oy (galaxyParamStep g) c).1 ≠ 0 := by
        have h0 := h 0 (by simp)
        rwa [List.getD_cons_zero, Function.iterate_one] at h0
      have h' : ∀ k : ℕ, k + 1 < (r :: rs).length →
          (galaxyPoint ox oy (galaxyParamStep^[k + 1] (galaxyParamStep g))
            ((r :: rs).getD k 0)).1 ≠ 0 := by
        intro k hk
        have hh := h (k + 1) (by simpa using Nat.succ_lt_succ hk)
        rwa [List.getD_cons_succ, Function.iterate_succ_apply] at hh
      rw [galaxyLoop_len_ne ox oy (r :: rs) (galaxyParamStep g)
        (galaxyPoint ox oy (galaxyParamStep g) c) hcur h']
      simp

/-- Lower bound on a produced point's x-coordinate: the cosine terms are bounded
by the diameter and the anchor spread. -/
theorem galaxyPoint_fst_lb (ox oy : ℝ) (g : Galaxy) (c : ℤ) (hd : 0 ≤ g.diameter) :
    (ox + (g.x - ox) * ((c : ℝ) / ((g.curvature : ℤ) : ℝ))) - g.diameter
        - 2 * |g.hptr_x - g.hptr_y| ≤ (galaxyPoint ox oy g c).1 := by
  simp only [galaxyPoint]
  have hc1 : |(g.hptr_x - g.hptr_y) * Real.cos g.theta| ≤ |g.hptr_x - g.hptr_y| := by
    rw [abs_mul]
    exact mul_le_of_le_one_right (abs_nonneg _) (Real.abs_cos_le_one _)
  have hc2 : -(|g.hptr_x - g.hptr_y|) ≤ (g.hptr_x - g.hptr_y) * Real.cos g.theta :=
    le_trans (neg_le_neg hc1) (neg_abs_le _)
  have hc3 : -g.diameter ≤ g.diameter * Real.cos ((g.hptr_x / g.hptr_y - 1) * g.theta) := by
    have := mul_le_mul_of_nonneg_left
      (Real.neg_one_le_cos ((g.hptr_x / g.hptr_y - 1) * g.theta)) hd
    linarith
  have hc4 : g.hptr_x - g.hptr_y ≤ |g.hptr_x - g.hptr_y| := le_abs_self _
  linarith

/-- A freshly constructed galaxy grows for (at least) its first 4410 inner
iterations: diameter `9 + k/10`, theta `k` steps, latch clear. -/
theorem galaxy_new_iterate (mx my : ℝ) (sw sh col : ℕ) (k : ℕ) (hk : k ≤ 4410) :
    galaxyParamStep^[k] (Galaxy.new mx my sw sh col)
      = { Galaxy.new mx my sw sh col with
          theta := (Galaxy.new mx my sw sh col).theta
            + (k : ℝ) * (Galaxy.new mx my sw sh col).theta_step,
          diameter := (Galaxy.new mx my sw sh col).diameter + (k : ℝ) / 10 } := by
  apply galaxyParamStep_iterate_grow
  · rfl
  · intro j hj
    show (9 : ℝ) + (j : ℝ) / 10 ≤ 450
    have hj' : (j : ℝ) ≤ 4409 := by
      have h9 : j ≤ 4409 := by omega
      exact_mod_cast h9
    linarith

/-- In the C4 scenario every point produced at sub-indices 9 down to 1 has
strictly positive x-coordinate: the anchor term `100 · curv_step/10` dominates
the diameter and the tiny hypotrochoid anchors. -/
theorem c4_point_pos (k : ℕ) (hk : k ≤ 8) :
    0 < (galaxyPoint 0 0 (galaxyParamStep^[k + 1] (Galaxy.new 100 100 1920 1080 0))
      ((revRange (10 : ℤ)).getD k 0)).1 := by
  rw [galaxy_new_iterate 100 100 1920 1080 0 (k + 1) (by omega)]
  rw [revRange_getD 10 k (by omega)]
  have hnat : ((10 : ℤ).toNat - 1 - k : ℕ) = 9 - k := by omega
  rw [hnat]
  refine lt_of_lt_of_le ?_ (galaxyPoint_fst_lb 0 0 _ _ ?_)
  · simp only [Galaxy.new]
    have hterm : (((9 - k : ℕ) : ℤ) : ℝ) = 9 - (k : ℝ) := by
      push_cast [Nat.cast_sub (show k ≤ 9 by omega)]
      ring
    have hkp : ((k + 1 : ℕ) : ℝ) = (k : ℝ) + 1 := by push_cast; ring
    rw [hterm, hkp]
    have hten : (((10 : ℤ) : ℤ) : ℝ) = 10 := by norm_num
    rw [hten]
    have habs : |(100 : ℝ) / ((1920 * 999 : ℕ) : ℝ) / 999
        - (100 : ℝ) / ((1080 * 999 : ℕ) : ℝ) / 999| ≤ 1 / 1000000 := by
      have e1 : ((1920 * 999 : ℕ) : ℝ) = 1918080 := by norm_num
      have e2 : ((1080 * 999 : ℕ) : ℝ) = 1078920 := by norm_num
      rw [e1, e2, abs_le]
      constructor <;> norm_num
    have hk' : (k : ℝ) ≤ 8 := by exact_mod_cast hk
    linarith
  · show (0 : ℝ) ≤ 9 + ((k + 1 : ℕ) : ℝ) / 10
    positivity

/-- One host tick equals `curvature` many inner parameter steps. -/
theorem galaxyTick_eq (g : Galaxy) :
    galaxyTick g = galaxyParamStep^[g.curvature.toNat] g := by
  unfold galaxyTick
  simp only [draw_galaxy_step_inc]
  rw [galaxyLoop_fst, revRange_length]

/-- On a freshly constructed galaxy, `n` host ticks are `10 n` inner steps
(its curvature, 10, is never modified). -/
theorem galaxyTick_iterate_new (mx my : ℝ) (sw sh col : ℕ) (n : ℕ) :
    galaxyTick^[n] (Galaxy.new mx my sw sh col)
      = galaxyParamStep^[10 * n] (Galaxy.new mx my sw sh col) := by
  induction n with
  | zero => simp
  | succ m ih =>
    rw [Function.iterate_succ_apply', ih, galaxyTick_eq]
    have hc : (galaxyParamStep^[10 * m] (Galaxy.new mx my sw sh col)).curvature = 10 :=
      ((galaxyParamStep_iterate_frame (10 * m) (Galaxy.new mx my sw sh col)).2.2.2.1).trans rfl
    rw [hc, show ((10 : ℤ)).toNat = 10 from rfl, ← Function.iterate_add_apply]
    congr 1
    omega

/-! ### Claims about the galaxy engine -/

/-- C2, counterexample: in the latch-clearing iteration the claim predicts that only
the decrement applies, i.e. `theta` becomes `theta - theta_step = 0 - 1`.  On a
latched galaxy with diameter `1/20 < 0.1` the growth branch re-runs within the same
iteration, so `theta` ends at `0`, not `0 - 1`. -/
theorem c2_counterexample :
    (galaxyParamStep { x := 0, y := 0, color := 0, diameter := 1 / 20, max_diameter := 450,
                       curvature := 1, theta := 0, theta_step := 1, is_max_radius := true,
                       hptr_x := 1, hptr_y := 1 }).theta ≠ (0 : ℝ) - 1 := by
  rw [galaxyParamStep_shrink_exit _ (Or.inr rfl) (by norm_num)]
  norm_num

/-- C2, amended: one inner iteration with the shrink condition holding applies only
the decrements while the pre-decrement diameter is at least `0.1`; in the iteration
where the diameter is below `0.1`, the latch is cleared and the growth branch also
runs within the same iteration, leaving `theta` and `diameter` net unchanged. -/
theorem c2_amended (g : Galaxy)
    (hc : g.diameter > g.max_diameter ∨ g.is_max_radius = true) :
    ((0.1 : ℝ) ≤ g.diameter →
      galaxyParamStep g = { g with is_max_radius := true,
                                   theta := g.theta - g.theta_step,
                                   diameter := g.diameter - 0.1 }) ∧
    (g.diameter < 0.1 →
      galaxyParamStep g = { g with is_max_radius := false }) :=
  ⟨fun h => galaxyParamStep_shrink g hc (not_lt.mpr h),
   fun h => galaxyParamStep_shrink_exit g hc h⟩

/-- C2, witness: a latched galaxy well above the floor takes the pure-decrement
branch. -/
theorem c2_witness :
    galaxyParamStep { x := 0, y := 0, color := 0, diameter := 5, max_diameter := 4,
                      curvature := 1, theta := 0, theta_step := 1, is_max_radius := false,
                      hptr_x := 1, hptr_y := 1 }
      = { x := 0, y := 0, color := 0, diameter := 5 - 0.1, max_diameter := 4,
          curvature := 1, theta := 0 - 1, theta_step := 1, is_max_radius := true,
          hptr_x := 1, hptr_y := 1 } :=
  (c2_amended _ (Or.inl (by norm_num))).1 (by norm_num)

/-- C5, counterexample: the claim says stepping a curvature-0 galaxy fails with an
`InvalidParameter` error.  The source has no error path: the loop body (and with it
the division `curv_step / curvature`) never executes, the call completes, draws
nothing, and still overwrites the Prior-Origin slot. -/
theorem c5_counterexample :
    draw_galaxy_step_inc 0 0 Galaxy.empty = (Galaxy.empty, (0, 0), []) := by
  simp [draw_galaxy_step_inc, revRange, Galaxy.empty, galaxyLoop]

/-- C5, amended: stepping any galaxy whose curvature is 0 completes without error:
the inner loop body never runs, no segments are drawn, the state is unchanged, and
the Prior-Origin slot is still overwritten with the galaxy's position. -/
theorem c5_amended (ox oy : ℝ) (g : Galaxy) (hc : g.curvature = 0) :
    draw_galaxy_step_inc ox oy g = (g, (g.x, g.y), []) := by
  simp [draw_galaxy_step_inc, revRange, hc, galaxyLoop]

/-- C5, witness: the empty galaxy has curvature 0. -/
theorem c5_witness :
    draw_galaxy_step_inc 1 2 Galaxy.empty
      = (Galaxy.empty, (Galaxy.empty.x, Galaxy.empty.y), []) :=
  c5_amended 1 2 Galaxy.empty rfl

/-- C9: one call to the galaxy step operation leaves `x`, `y`, `color`, `curvature`,
`max_diameter`, `theta_step`, `hptr_x` and `hptr_y` unchanged (only `theta`,
`diameter` and `is_max_radius` are modified). -/
theorem c9_frame (ox oy : ℝ) (g : Galaxy) :
    (draw_galaxy_step_inc ox oy g).1.x = g.x ∧
    (draw_galaxy_step_inc ox oy g).1.y = g.y ∧
    (draw_galaxy_step_inc ox oy g).1.color = g.color ∧
    (draw_galaxy_step_inc ox oy g).1.curvature = g.curvature ∧
    (draw_galaxy_step_inc ox oy g).1.max_diameter = g.max_diameter ∧
    (draw_galaxy_step_inc ox oy g).1.theta_step = g.theta_step ∧
    (draw_galaxy_step_inc ox oy g).1.hptr_x = g.hptr_x ∧
    (draw_galaxy_step_inc ox oy g).1.hptr_y = g.hptr_y := by
  simp only [draw_galaxy_step_inc]
  rw [galaxyLoop_fst]
  exact galaxyParamStep_iterate_frame _ g

/-- C4: constructing a Galaxy at pointer (100, 100) on a 1920×1080 surface (its
curvature is 10) and calling `step` once with the Prior-Origin slot at its process
start value (0, 0) issues exactly 9 line segments (the first sub-index draws none),
and afterwards the Prior-Origin slot equals (100, 100). -/
theorem c4_scenario :
    (draw_galaxy_step_inc 0 0 (Galaxy.new 100 100 1920 1080 0)).2.1 = (100, 100) ∧
    (draw_galaxy_step_inc 0 0 (Galaxy.new 100 100 1920 1080 0)).2.2.length = 9 := by
  have hcurv : (Galaxy.new 100 100 1920 1080 0).curvature = 10 := rfl
  constructor
  · simp only [draw_galaxy_step_inc]
    rw [hcurv, galaxyLoop_fst, revRange_length]
    obtain ⟨hx, hy, -⟩ :=
      galaxyParamStep_iterate_frame ((10 : ℤ)).toNat (Galaxy.new 100 100 1920 1080 0)
    rw [hx, hy]
    rfl
  · simp only [draw_galaxy_step_inc]
    rw [hcurv]
    rw [galaxyLoop_len_zero 0 0 (revRange 10) _ _ rfl ?hpt]
    · rw [revRange_length]
      rfl
    case hpt =>
      intro k hk1
      rw [revRange_length] at hk1
      exact (c4_point_pos k (by omega)).ne'

/-- C3, counterexample: the claim says each call to `step` increases the diameter of
a freshly constructed Galaxy by exactly 0.1.  A fresh Galaxy has curvature 10 and
every one of the 10 inner iterations adds 0.1, so one tick takes the diameter from
9 to 10, not to 9 + 0.1. -/
theorem c3_counterexample :
    (galaxyTick (Galaxy.new 100 100 1920 1080 0)).diameter
      ≠ (Galaxy.new 100 100 1920 1080 0).diameter + 0.1 := by
  rw [galaxyTick_eq, show (Galaxy.new 100 100 1920 1080 0).curvature.toNat = 10 from rfl,
    galaxy_new_iterate 100 100 1920 1080 0 10 (by omega)]
  simp only [Galaxy.new]
  norm_num

/-- Growing-step projections: diameter gains 0.1 and the latch stays clear. -/
theorem galaxyParamStep_grow_diameter (g : Galaxy) (hl : g.is_max_radius = false)
    (hd : ¬ g.diameter > g.max_diameter) :
    (galaxyParamStep g).diameter = g.diameter + 0.1 := by
  rw [galaxyParamStep_grow g hl hd]

/-- Growing-step projections: the latch stays clear. -/
theorem galaxyParamStep_grow_latch (g : Galaxy) (hl : g.is_max_radius = false)
    (hd : ¬ g.diameter > g.max_diameter) :
    (galaxyParamStep g).is_max_radius = false := by
  rw [galaxyParamStep_grow g hl hd]
  exact hl

/-- Shrinking-step projections: diameter loses 0.1. -/
theorem galaxyParamStep_shrink_diameter (g : Galaxy)
    (hc : g.diameter > g.max_diameter ∨ g.is_max_radius = true)
    (hd : ¬ g.diameter < 0.1) :
    (galaxyParamStep g).diameter = g.diameter - 0.1 := by
  rw [galaxyParamStep_shrink g hc hd]

/-- Shrinking-step projections: the latch is set. -/
theorem galaxyParamStep_shrink_latch (g : Galaxy)
    (hc : g.diameter > g.max_diameter ∨ g.is_max_radius = true)
    (hd : ¬ g.diameter < 0.1) :
    (galaxyParamStep g).is_max_radius = true := by
  rw [galaxyParamStep_shrink g hc hd]

/-- The latch survives iterated shrinking while the diameter stays at or above the
floor. -/
theorem galaxyParamStep_iterate_shrink_latch (g : Galaxy) (k : ℕ)
    (hl : g.is_max_radius = true)
    (hd : ∀ j : ℕ, j < k → (0.1 : ℝ) ≤ g.diameter - (j : ℝ) / 10) :
    (galaxyParamStep^[k] g).is_max_radius = true := by
  rw [galaxyParamStep_iterate_shrink g k hl hd]
  exact hl

/-- C3, amended: on a freshly constructed Galaxy (diameter 9, max 450, curvature 10),
each tick while growing adds exactly 1.0 = curvature × 0.1 to the diameter,
monotonically: after `n ≤ 441` ticks the diameter is `9 + n` with the latch still
clear; after exactly `(450 - 9) / 1.0 = 441` ticks the diameter equals the maximum
450 without exceeding it; during the next (442nd) call the first inner iteration
pushes the diameter to 450.1 > 450 with the latch still clear, the second inner
iteration of that same call sets the Shrinking latch, and the tick ends latched. -/
theorem c3_amended (mx my : ℝ) (sw sh col : ℕ) (n : ℕ) (hn : n ≤ 441) :
    (galaxyTick^[n] (Galaxy.new mx my sw sh col)).diameter = 9 + (n : ℝ) ∧
    (galaxyTick^[n] (Galaxy.new mx my sw sh col)).is_max_radius = false ∧
    (galaxyTick^[441] (Galaxy.new mx my sw sh col)).diameter = 450 ∧
    (galaxyParamStep (galaxyTick^[441] (Galaxy.new mx my sw sh col))).diameter = 450 + 0.1 ∧
    (galaxyParamStep (galaxyTick^[441] (Galaxy.new mx my sw sh col))).is_max_radius = false ∧
    (galaxyParamStep^[2] (galaxyTick^[441] (Galaxy.new mx my sw sh col))).is_max_radius
      = true ∧
    (galaxyTick^[442] (Galaxy.new mx my sw sh col)).is_max_radius = true := by
  have hd441 : (galaxyTick^[441] (Galaxy.new mx my sw sh col)).diameter = 450 := by
    rw [galaxyTick_iterate_new, show 10 * 441 = 4410 from rfl,
      galaxy_new_iterate mx my sw sh col 4410 le_rfl]
    simp only [Galaxy.new]
    norm_num
  have hl441 : (galaxyTick^[441] (Galaxy.new mx my sw sh col)).is_max_radius = false := by
    rw [galaxyTick_iterate_new, show 10 * 441 = 4410 from rfl,
      galaxy_new_iterate mx my sw sh col 4410 le_rfl]
    rfl
  have hmax441 : (galaxyTick^[441] (Galaxy.new mx my sw sh col)).max_diameter = 450 := by
    rw [galaxyTick_iterate_new, show 10 * 441 = 4410 from rfl,
      galaxy_new_iterate mx my sw sh col 4410 le_rfl]
    rfl
  have hngt : ¬ (galaxyTick^[441] (Galaxy.new mx my sw sh col)).diameter
      > (galaxyTick^[441] (Galaxy.new mx my sw sh col)).max_diameter := by
    rw [hd441, hmax441]
    norm_num
  have hs1d : (galaxyParamStep (galaxyTick^[441] (Galaxy.new mx my sw sh col))).diameter
      = 450 + 0.1 := by
    rw [galaxyParamStep_grow_diameter _ hl441 hngt, hd441]
  have hs1max : (galaxyParamStep (galaxyTick^[441] (Galaxy.new mx my sw sh col))).max_diameter
      = 450 :=
    ((galaxyParamStep_frame _).2.2.2.2.1).trans hmax441
  have hs1gt : (galaxyParamStep (galaxyTick^[441] (Galaxy.new mx my sw sh col))).diameter
      > (galaxyParamStep (galaxyTick^[441] (Galaxy.new mx my sw sh col))).max_diameter ∨
      (galaxyParamStep (galaxyTick^[441] (Galaxy.new mx my sw sh col))).is_max_radius
        = true := by
    left
    rw [hs1d, hs1max]
    norm_num
  have hs1nlt : ¬ (galaxyParamStep (galaxyTick^[441] (Galaxy.new mx my sw sh col))).diameter
      < 0.1 := by
    rw [hs1d]
    norm_num
  have hs2l :
      (galaxyParamStep^[2] (galaxyTick^[441] (Galaxy.new mx my sw sh col))).is_max_radius
        = true := by
    rw [show (2 : ℕ) = 1 + 1 from rfl, Function.iterate_add_apply, Function.iterate_one]
    exact galaxyParamStep_shrink_latch _ hs1gt hs1nlt
  have hs2d :
      (galaxyParamStep^[2] (galaxyTick^[441] (Galaxy.new mx my sw sh col))).diameter
        = 450 := by
    rw [show (2 : ℕ) = 1 + 1 from rfl, Function.iterate_add_apply, Function.iterate_one]
    rw [galaxyParamStep_shrink_diameter _ hs1gt hs1nlt, hs1d]
    norm_num
  refine ⟨?_, ?_, hd441, hs1d, ?_, hs2l, ?_⟩
  · rw [galaxyTick_iterate_new, galaxy_new_iterate mx my sw sh col (10 * n) (by omega)]
    simp only [Galaxy.new]
    push_cast
    ring
  · rw [galaxyTick_iterate_new, galaxy_new_iterate mx my sw sh col (10 * n) (by omega)]
    rfl
  · exact galaxyParamStep_grow_latch _ hl441 hngt
  · have hcurv : (galaxyTick^[441] (Galaxy.new mx my sw sh col)).curvature = 10 := by
      rw [galaxyTick_iterate_new]
      exact ((galaxyParamStep_iterate_frame (10 * 441)
        (Galaxy.new mx my sw sh col)).2.2.2.1).trans rfl
    rw [show (442 : ℕ) = 1 + 441 from rfl, Function.iterate_add_apply, Function.iterate_one,
      galaxyTick_eq, hcurv, show ((10 : ℤ)).toNat = 10 from rfl,
      show (10 : ℕ) = 8 + 2 from rfl, Function.iterate_add_apply]
    refine galaxyParamStep_iterate_shrink_latch _ 8 hs2l ?_
    intro j hj
    rw [hs2d]
    have hj7 : (j : ℝ) ≤ 7 := by
      have h7 : j ≤ 7 := by omega
      exact_mod_cast h7
    linarith

/-- C3, witness: the growth phase of the concrete galaxy of the end-to-end scenario
reaches the maximum diameter after exactly 441 ticks. -/
theorem c3_witness :
    (galaxyTick^[441] (Galaxy.new 100 100 1920 1080 0)).diameter = 450 :=
  (c3_amended 100 100 1920 1080 0 0 (by decide)).2.2.1
